import Mathlib

set_option maxRecDepth 2048

/-!
Shallow embedding of the Progressive Disclosure core of the `mask-kernel`
repository: `src/mask/core/skill.py`, `src/mask/core/exceptions.py`,
`src/mask/core/state.py`, `src/mask/core/registry.py`,
`src/mask/loader/skill_md_loader.py`, `src/mask/loader/python_loader.py`
and `src/mask/middleware/skill_middleware.py`.

Python strings are modelled as Lean `String` (a list of unicode code points,
matching Python's `len` and slicing semantics).  Python exceptions are
modelled with `Except`; methods that mutate `self` are modelled in
state-passing style, returning the outcome together with the post-state.
Filesystem contents seen by directory discovery are modelled as explicit
data (`DirEntry`): the result of resolving a path against the root becomes
the boolean field `safeResolved`, and the outcome of executing a `skill.py`
module becomes the field `pyLoad`.
-/

namespace Mask

/-- Python slicing `s[:n]` on a string: the first `n` code points. -/
def pySlice (s : String) (n : Nat) : String :=
  String.mk (s.data.take n)

/-- Python `s.startswith(pre)`. -/
def pyStartsWith (s pre : String) : Bool :=
  pre.data.isPrefixOf s.data

/-- Python `s.replace(a, b)` for single-character arguments. -/
def pyReplaceChar (s : String) (a b : Char) : String :=
  String.mk (s.data.map (fun c => if c = a then b else c))

/-- Python `s.strip()`: remove leading and trailing whitespace. -/
def pyStrip (s : String) : String :=
  String.mk (((s.data.dropWhile Char.isWhitespace).reverse.dropWhile
    Char.isWhitespace).reverse)

/-- Exception taxonomy from `src/mask/core/exceptions.py` (the skill-related
subset used by the core subsystem). -/
inductive SkillError where
  | notFound (skill_name : String)
  | loadError (skill_name : String) (reason : String)
  | alreadyRegistered (skill_name : String)
  | metadataError (message : String)
deriving DecidableEq, Repr

/-- Constant `MAX_SKILL_NAME_LENGTH` from `src/mask/core/skill.py`. -/
def MAX_SKILL_NAME_LENGTH : Nat := 64

/-- Constant `MAX_SKILL_DESCRIPTION_LENGTH` from `src/mask/core/skill.py`. -/
def MAX_SKILL_DESCRIPTION_LENGTH : Nat := 1024

/-- Field bundle of the `SkillMetadata` dataclass from `src/mask/core/skill.py`. -/
structure SkillMetadata where
  name : String
  description : String
  version : String
  tags : List String
  source : String
  path : Option String
  enabled : Bool
  allowed_tools : Option String
  license : Option String
  compatibility : Option String
deriving DecidableEq, Repr

/-- Validation step `SkillMetadata.__post_init__` from `src/mask/core/skill.py`:
an over-length name raises `SkillMetadataError`; an over-length description is
silently truncated to `MAX_SKILL_DESCRIPTION_LENGTH` code points.  Constructing
the dataclass is modelled as building the raw record and running `validate`. -/
def SkillMetadata.validate (m : SkillMetadata) : Except SkillError SkillMetadata :=
  if m.name.length > MAX_SKILL_NAME_LENGTH then
    Except.error (SkillError.metadataError
      ("Skill name exceeds " ++ toString MAX_SKILL_NAME_LENGTH ++ " characters: " ++ m.name))
  else if m.description.length > MAX_SKILL_DESCRIPTION_LENGTH then
    Except.ok { m with description := pySlice m.description MAX_SKILL_DESCRIPTION_LENGTH }
  else
    Except.ok m

/-- LangChain `BaseTool` as the data the core subsystem reads from it. -/
structure BaseTool where
  name : String
  description : String
deriving DecidableEq, Repr

/-- A skill object: the data returned by the `BaseSkill` interface of
`src/mask/core/skill.py` (`metadata`, `get_tools()`, `get_loader_tool()`,
`get_instructions()`).  `is_markdown` records whether the object is a
`MarkdownSkill` instance (used by `get_skills_summary`). -/
structure BaseSkill where
  metadata : SkillMetadata
  capability_tools : List BaseTool
  loader_tool : BaseTool
  instructions : String
  is_markdown : Bool
deriving DecidableEq, Repr

/-- Method `BaseSkill.get_tools`. -/
def BaseSkill.get_tools (s : BaseSkill) : List BaseTool := s.capability_tools

/-- Method `BaseSkill.get_loader_tool`. -/
def BaseSkill.get_loader_tool (s : BaseSkill) : BaseTool := s.loader_tool

/-- Method `BaseSkill.get_instructions`. -/
def BaseSkill.get_instructions (s : BaseSkill) : String := s.instructions

/-- Constructor of `MarkdownSkill` from `src/mask/core/skill.py`: no capability
tools; the loader tool is named `use_<name with hyphens replaced>` and described
from the metadata; `get_instructions` returns the SKILL.md body. -/
def MarkdownSkill.make (metadata : SkillMetadata) (instructions : String) : BaseSkill :=
  { metadata := metadata
    capability_tools := []
    loader_tool :=
      { name := "use_" ++ pyReplaceChar metadata.name (Char.ofNat 45) (Char.ofNat 95)
        description := "Activate the " ++ metadata.name ++ " skill. " ++ metadata.description }
    instructions := instructions
    is_markdown := true }

/-- Loop body of `skill_list_reducer` from `src/mask/core/state.py`: `seen`
is the membership set, `result` the accumulated output list. -/
def reducerLoop (seen result : List String) : List String → List String
  | [] => result
  | skill :: rest =>
    if seen.contains skill then reducerLoop seen result rest
    else reducerLoop (skill :: seen) (result ++ [skill]) rest

/-- Function `skill_list_reducer` from `src/mask/core/state.py`:
`seen = set(current); result = list(current)`, then append each element of
`new` not seen yet. -/
def skill_list_reducer (current new : List String) : List String :=
  reducerLoop current current new

/-- Character class `[a-z0-9]` of the name pattern in
`src/mask/loader/skill_md_loader.py`. -/
def isLowerAlnum (c : Char) : Bool :=
  (Char.ofNat 97 ≤ c && c ≤ Char.ofNat 122) || (Char.ofNat 48 ≤ c && c ≤ Char.ofNat 57)

/-- Matcher for the anchored regex `[a-z0-9]+(-[a-z0-9]+)*` used by
`_validate_skill_name`.  The boolean state records whether the next character
must start a new `[a-z0-9]+` segment (true initially and right after a
hyphen). -/
def nameAux : Bool → List Char → Bool
  | needSeg, [] => !needSeg
  | true, c :: cs => isLowerAlnum c && nameAux false cs
  | false, c :: cs =>
    if c = Char.ofNat 45 then nameAux true cs
    else isLowerAlnum c && nameAux false cs

/-- Python semantics of the `$` anchor (no MULTILINE): it matches at the end
of the string or just before exactly one trailing newline, so the anchored
pattern tolerates a single trailing newline after the body. -/
def dropOneTrailingNewline (l : List Char) : List Char :=
  match l.getLast? with
  | some c => if c = Char.ofNat 10 then l.dropLast else l
  | none => l

/-- Match of `re.match(r"^[a-z0-9]+(-[a-z0-9]+)*$", name)` on a skill name:
the body must cover the whole string, except that `$` also accepts one
trailing newline (Python `re` semantics). -/
def skill_name_matches (name : String) : Bool :=
  nameAux true (dropOneTrailingNewline name.data)

/-- Function `_validate_skill_name` from `src/mask/loader/skill_md_loader.py`.
Returns `(is_valid, error_message)`; a mismatch with the directory name is only
a logged warning, so `directory_name` does not affect the result. -/
def validate_skill_name (name : String) (directory_name : String) : Bool × String :=
  let _ := directory_name
  if name = "" then (false, "name is required")
  else if name.length > MAX_SKILL_NAME_LENGTH then
    (false, "name exceeds " ++ toString MAX_SKILL_NAME_LENGTH ++ " characters")
  else if !(skill_name_matches name) then
    (false, "name must be lowercase alphanumeric with single hyphens only")
  else (true, "")

/-- The `SkillRegistry` of `src/mask/core/registry.py`: an insertion-ordered
mapping from skill name to skill (Python dicts preserve insertion order). -/
structure SkillRegistry where
  skills : List (String × BaseSkill)
deriving DecidableEq, Repr

/-- A fresh registry, `SkillRegistry()`. -/
def emptyRegistry : SkillRegistry := { skills := [] }

/-- Dict lookup `self._skills[name]` (with `name in self._skills` as
`isSome`). -/
def SkillRegistry.lookup (r : SkillRegistry) (skill_name : String) : Option BaseSkill :=
  (r.skills.find? (fun p => p.1 == skill_name)).map Prod.snd

/-- Method `SkillRegistry.has`. -/
def SkillRegistry.has (r : SkillRegistry) (skill_name : String) : Bool :=
  (r.lookup skill_name).isSome

/-- Method `SkillRegistry.get`: raises `SkillNotFoundError` if absent. -/
def SkillRegistry.get (r : SkillRegistry) (skill_name : String) :
    Except SkillError BaseSkill :=
  match r.lookup skill_name with
  | some skill => Except.ok skill
  | none => Except.error (SkillError.notFound skill_name)

/-- Method `SkillRegistry.register`, in state-passing style: the first
component is the raised exception or unit, the second the registry after the
call.  On a duplicate name it raises `SkillAlreadyRegisteredError` before any
mutation, so the registry is returned unchanged. -/
def SkillRegistry.register (r : SkillRegistry) (skill : BaseSkill) :
    Except SkillError Unit × SkillRegistry :=
  let name := skill.metadata.name
  if r.has name then (Except.error (SkillError.alreadyRegistered name), r)
  else (Except.ok (), { skills := r.skills ++ [(name, skill)] })

/-- Method `SkillRegistry.unregister`, in state-passing style. -/
def SkillRegistry.unregister (r : SkillRegistry) (skill_name : String) :
    Except SkillError Unit × SkillRegistry :=
  if r.has skill_name then
    (Except.ok (), { skills := r.skills.filter (fun p => !(p.1 == skill_name)) })
  else (Except.error (SkillError.notFound skill_name), r)

/-- Method `SkillRegistry.get_all_loader_tools`: the loader tool of every
enabled skill, in registry iteration order. -/
def SkillRegistry.get_all_loader_tools (r : SkillRegistry) : List BaseTool :=
  r.skills.foldl
    (fun tools p =>
      if p.2.metadata.enabled then tools ++ [p.2.get_loader_tool] else tools)
    []

/-- Method `SkillRegistry.get_tools_for_active_skills`: per enabled skill, the
loader tool always, then the capability tools when the dict key is in
`active_skills`. -/
def SkillRegistry.get_tools_for_active_skills (r : SkillRegistry)
    (active_skills : List String) : List BaseTool :=
  r.skills.foldl
    (fun tools p =>
      if !p.2.metadata.enabled then tools
      else
        let tools2 := tools ++ [p.2.get_loader_tool]
        if active_skills.contains p.1 then tools2 ++ p.2.get_tools else tools2)
    []

/-- Method `SkillRegistry.get_active_skill_instructions`: headed instruction
blocks for active, registered, enabled skills with non-empty instructions, in
the order of `active_skills`, joined by a separator. -/
def SkillRegistry.get_active_skill_instructions (r : SkillRegistry)
    (active_skills : List String) : String :=
  let instructions_parts := active_skills.filterMap (fun skill_name =>
    match r.lookup skill_name with
    | some skill =>
      if skill.metadata.enabled then
        let instructions := skill.get_instructions
        if instructions = "" then none
        else some ("## " ++ skill.metadata.name ++ "\n\n" ++ instructions)
      else none
    | none => none)
  if instructions_parts.isEmpty then ""
  else String.intercalate "\n\n---\n\n" instructions_parts

/-- Summary record built by `SkillRegistry.get_skills_summary`. -/
structure SkillSummary where
  name : String
  description : String
  version : String
  tags : List String
  source : String
  enabled : Bool
  type : String
deriving DecidableEq, Repr

/-- Method `SkillRegistry.get_skills_summary`. -/
def SkillRegistry.get_skills_summary (r : SkillRegistry) : List SkillSummary :=
  r.skills.map (fun p =>
    { name := p.2.metadata.name
      description := p.2.metadata.description
      version := p.2.metadata.version
      tags := p.2.metadata.tags
      source := p.2.metadata.source
      enabled := p.2.metadata.enabled
      type := if !p.2.is_markdown then "python" else "markdown" })

/-- YAML frontmatter mapping of a SKILL.md file, as the fields
`parse_skill_md` reads from it (scalar values modelled as strings). -/
structure Frontmatter where
  name : Option String
  description : Option String
  version : Option String
  tags : List String
  license : Option String
  compatibility : Option String
  allowed_tools : Option String
deriving DecidableEq, Repr

/-- Content of a SKILL.md file as seen after the textual stage of
`parse_skill_md` (`src/mask/loader/skill_md_loader.py`): either one of the
pre-mapping failures (file over 10 MiB, no frontmatter match, invalid YAML,
frontmatter not a mapping — all raised as `SkillLoadError`), or the extracted
frontmatter mapping together with the raw body text. -/
inductive SkillMdContent where
  | unparseable (reason : String)
  | parsed (fm : Frontmatter) (body : String)
deriving DecidableEq, Repr

/-- Mapping-level part of `parse_skill_md` from
`src/mask/loader/skill_md_loader.py`: require non-empty `name` and
`description`, validate the name format against `_validate_skill_name`,
truncate the description, then construct `SkillMetadata` (whose
`__post_init__` runs `SkillMetadata.validate`).  The body is stripped of
surrounding whitespace.  `path` is rendered as `<dir>/SKILL.md`. -/
def parse_skill_md (content : SkillMdContent) (dir_name : String) (source : String) :
    Except SkillError (SkillMetadata × String) :=
  match content with
  | SkillMdContent.unparseable reason =>
    Except.error (SkillError.loadError dir_name reason)
  | SkillMdContent.parsed fm body =>
    match fm.name, fm.description with
    | some name, some description =>
      if name = "" || description = "" then
        Except.error (SkillError.loadError dir_name
          "missing required name or description field")
      else
        let v := validate_skill_name name dir_name
        if !v.1 then Except.error (SkillError.metadataError v.2)
        else
          let description_str :=
            if description.length > MAX_SKILL_DESCRIPTION_LENGTH then
              pySlice description MAX_SKILL_DESCRIPTION_LENGTH
            else description
          (SkillMetadata.validate
            { name := name
              description := description_str
              version := fm.version.getD "1.0.0"
              tags := fm.tags
              source := source
              path := some (dir_name ++ "/SKILL.md")
              enabled := true
              allowed_tools := fm.allowed_tools
              license := fm.license
              compatibility := fm.compatibility }).map
            (fun metadata => (metadata, pyStrip body))
    | _, _ =>
      Except.error (SkillError.loadError dir_name
        "missing required name or description field")

/-- Function `load_markdown_skill` from `src/mask/loader/skill_md_loader.py`:
`none` when SKILL.md is absent or when parsing raises `SkillLoadError` or
`SkillMetadataError` (both caught and logged). -/
def load_markdown_skill (md_content : Option SkillMdContent) (dir_name : String)
    (source : String) : Option BaseSkill :=
  match md_content with
  | none => none
  | some content =>
    match parse_skill_md content dir_name source with
    | Except.ok (metadata, instructions) => some (MarkdownSkill.make metadata instructions)
    | Except.error _ => none

instance {ε α : Type} [DecidableEq ε] [DecidableEq α] : DecidableEq (Except ε α) :=
  fun x y =>
    match x, y with
    | Except.ok a, Except.ok b =>
      if h : a = b then isTrue (by rw [h]) else isFalse (by simp [h])
    | Except.error e, Except.error f =>
      if h : e = f then isTrue (by rw [h]) else isFalse (by simp [h])
    | Except.ok _, Except.error _ => isFalse (by simp)
    | Except.error _, Except.ok _ => isFalse (by simp)

/-- One immediate child of a skills root directory, carrying the facts the
discovery code observes about it: its name, whether it is a directory,
whether its resolved path stays inside the resolved root (the result of
`_is_safe_path`, i.e. symlink/traversal resolution), the outcome of loading
`skill.py` when that file exists (`load_python_skill` either returns a skill
or raises `SkillLoadError`), and the content of SKILL.md when that file
exists. -/
structure DirEntry where
  name : String
  isDir : Bool
  safeResolved : Bool
  pyLoad : Option (Except SkillError BaseSkill)
  mdContent : Option SkillMdContent
deriving DecidableEq, Repr

/-- A skills root directory: missing on disk, or present with its listing. -/
inductive SkillsDir where
  | missing
  | present (entries : List DirEntry)
deriving DecidableEq, Repr

/-- Per-entry skill selection inside `SkillRegistry.discover_from_directory`
(`src/mask/core/registry.py` lines 275-295): try the Python skill first
(exceptions caught and logged, leaving `skill = None`); if no Python skill
resulted and SKILL.md exists, fall back to the markdown loader. -/
def load_skill_from_entry (e : DirEntry) (source : String) : Option BaseSkill :=
  match e.pyLoad with
  | some (Except.ok skill) => some skill
  | _ => load_markdown_skill e.mdContent e.name source

/-- Loop body of `SkillRegistry.discover_from_directory`: skip non-directories
and hidden directories, select a skill for the entry, and register it,
counting successes; `SkillAlreadyRegisteredError` is caught and the entry is
skipped with a warning. -/
def discover_step (source : String) (acc : Nat × SkillRegistry) (e : DirEntry) :
    Nat × SkillRegistry :=
  if !e.isDir then acc
  else if pyStartsWith e.name "." then acc
  else
    match load_skill_from_entry e source with
    | none => acc
    | some skill =>
      match acc.2.register skill with
      | (Except.ok _, r2) => (acc.1 + 1, r2)
      | (Except.error _, r2) => (acc.1, r2)

/-- Method `SkillRegistry.discover_from_directory`, in state-passing style:
returns the count of successfully registered skills and the post-state.  A
missing directory yields count 0 and no change. -/
def SkillRegistry.discover_from_directory (r : SkillRegistry) (skills_dir : SkillsDir)
    (source : String) : Nat × SkillRegistry :=
  match skills_dir with
  | SkillsDir.missing => (0, r)
  | SkillsDir.present entries => entries.foldl (discover_step source) (0, r)

/-- Function `discover_markdown_skills` from
`src/mask/loader/skill_md_loader.py`: unlike the registry method, it checks
`_is_safe_path` on every child before anything else and skips unsafe paths. -/
def discover_markdown_skills (skills_dir : SkillsDir) (source : String) :
    List BaseSkill :=
  match skills_dir with
  | SkillsDir.missing => []
  | SkillsDir.present entries =>
    entries.foldl
      (fun skills e =>
        if !e.safeResolved then skills
        else if !e.isDir then skills
        else
          match load_markdown_skill e.mdContent e.name source with
          | some skill => skills ++ [skill]
          | none => skills)
      []

/-- LangChain message as the middleware observes it: a `SystemMessage` or a
non-system message, each carrying string content (content-block lists are out
of scope; the middleware stringifies them the same way). -/
inductive BaseMessage where
  | system (content : String)
  | human (content : String)
  | ai (content : String)
deriving DecidableEq, Repr

/-- Content accessor `message.content`. -/
def BaseMessage.content : BaseMessage → String
  | BaseMessage.system c => c
  | BaseMessage.human c => c
  | BaseMessage.ai c => c

/-- Python check `isinstance(message, SystemMessage)`. -/
def isSystemMessage : BaseMessage → Bool
  | BaseMessage.system _ => true
  | _ => false

/-- Python check `messages_list and isinstance(messages_list[0], SystemMessage)`. -/
def headIsSystem (messages : List BaseMessage) : Bool :=
  match messages.head? with
  | some m => isSystemMessage m
  | none => false

/-- The `SkillState` of `src/mask/core/state.py`: message history plus the
`skills_loaded` activation list. -/
structure SkillState where
  messages : List BaseMessage
  skills_loaded : List String
deriving DecidableEq, Repr

/-- Function `build_skills_system_prompt` from
`src/mask/middleware/skill_middleware.py`: an Available Skills section listing
every enabled skill with an ACTIVE/available tag (when the registry is
non-empty), then an Active Skill Instructions section (when `active_skills`
is non-empty), joined line by line. -/
def build_skills_system_prompt (r : SkillRegistry) (active_skills : List String) :
    String :=
  let skills_summary := r.get_skills_summary
  let lines1 : List String :=
    if skills_summary.isEmpty then []
    else
      ["## Available Skills", "",
       "You have access to the following skills. Use the corresponding ",
       "`use_<skill_name>` tool to activate a skill and receive detailed ",
       "instructions for its use.", ""]
      ++ skills_summary.filterMap (fun skill_info =>
          if skill_info.enabled then
            some ("- **" ++ skill_info.name ++ "** ("
              ++ (if active_skills.contains skill_info.name then "ACTIVE" else "available")
              ++ "): " ++ skill_info.description)
          else none)
      ++ [""]
  let lines2 : List String :=
    if active_skills.isEmpty then []
    else
      ["## Active Skill Instructions", ""]
      ++ (let instructions := r.get_active_skill_instructions active_skills
          if instructions = "" then [] else [instructions])
      ++ [""]
  String.intercalate "\n" (lines1 ++ lines2)

/-- Function `inject_skills_into_messages` from
`src/mask/middleware/skill_middleware.py`: with an empty prompt the copied
input list is returned as is; otherwise a leading system message gets the
prompt prepended to its content (index-0 assignment), and without one a new
leading system message is inserted. -/
def inject_skills_into_messages (messages : List BaseMessage) (skills_prompt : String) :
    List BaseMessage :=
  if skills_prompt = "" then messages
  else
    match messages.head? with
    | some m =>
      if isSystemMessage m then
        messages.set 0
          (BaseMessage.system (skills_prompt ++ "\n\n---\n\n" ++ m.content))
      else BaseMessage.system skills_prompt :: messages
    | none => BaseMessage.system skills_prompt :: messages

/-- Function `filter_tools_for_state` from
`src/mask/middleware/skill_middleware.py`. -/
def filter_tools_for_state (r : SkillRegistry) (state : SkillState)
    (additional_tools : List BaseTool) : List BaseTool :=
  r.get_tools_for_active_skills state.skills_loaded ++ additional_tools

/-- Method `SkillMiddleware.prepare_messages`: the middleware object holds the
registry; `messages = none` selects `state["messages"]`. -/
def SkillMiddleware.prepare_messages (registry : SkillRegistry) (state : SkillState)
    (messages : Option (List BaseMessage)) : List BaseMessage :=
  let msgs := match messages with
    | some ms => ms
    | none => state.messages
  inject_skills_into_messages msgs
    (build_skills_system_prompt registry state.skills_loaded)

/-- Activation callback produced by
`SkillMiddleware.create_skill_activation_callback`: a state delta listing the
skill when it is registered, the empty delta otherwise. -/
def activate_skill (registry : SkillRegistry) (skill_name : String) : List String :=
  if registry.has skill_name then [skill_name] else []

/-- Declarative characterization, written from the wording of the state
reducer contract: the elements of the input not already in `seen`, in
first-seen order, with later duplicates dropped (each kept element joins
`seen`). -/
def newUniqueAgainst (seen : List String) : List String → List String
  | [] => []
  | s :: rest =>
    if seen.contains s then newUniqueAgainst seen rest
    else s :: newUniqueAgainst (s :: seen) rest

/-! Concrete demonstration data used to evaluate the model. -/

/-- Metadata of a small programmatic demo skill. -/
def metaA : SkillMetadata :=
  { name := "skill-a", description := "First demo skill", version := "1.0.0"
    tags := [], source := "local", path := none, enabled := true
    allowed_tools := none, license := none, compatibility := none }

/-- Metadata of a second programmatic demo skill. -/
def metaB : SkillMetadata :=
  { name := "skill-b", description := "Second demo skill", version := "1.0.0"
    tags := [], source := "local", path := none, enabled := true
    allowed_tools := none, license := none, compatibility := none }

/-- Programmatic demo skill with two capability tools. -/
def skillA : BaseSkill :=
  { metadata := metaA
    capability_tools := [⟨"a_tool_1", "cap"⟩, ⟨"a_tool_2", "cap"⟩]
    loader_tool := ⟨"use_skill_a", "loader"⟩
    instructions := "Use skill A"
    is_markdown := false }

/-- Programmatic demo skill with three capability tools and the same name as
`skillA` under different content (for duplicate-registration scenarios its
variant below shares the name). -/
def skillB : BaseSkill :=
  { metadata := metaB
    capability_tools := [⟨"b_tool_1", "cap"⟩, ⟨"b_tool_2", "cap"⟩, ⟨"b_tool_3", "cap"⟩]
    loader_tool := ⟨"use_skill_b", "loader"⟩
    instructions := "Use skill B"
    is_markdown := false }

/-- A second skill carrying the name `skill-a` but different content. -/
def skillA2 : BaseSkill :=
  { metadata := { metaA with description := "Impostor skill" }
    capability_tools := []
    loader_tool := ⟨"use_skill_a", "loader"⟩
    instructions := "Impostor"
    is_markdown := true }

/-- Registry holding `skillA` alone. -/
def regA : SkillRegistry := { skills := [("skill-a", skillA)] }

/-- Registry holding `skillA` and `skillB`, in that insertion order. -/
def regAB : SkillRegistry := { skills := [("skill-a", skillA), ("skill-b", skillB)] }

/-- Well-formed SKILL.md content for a declarative skill `good-skill`. -/
def goodMd : SkillMdContent :=
  SkillMdContent.parsed
    { name := some "good-skill", description := some "A well-formed skill"
      version := none, tags := [], license := none, compatibility := none
      allowed_tools := none }
    "Follow these instructions."

/-- SKILL.md content whose frontmatter is missing the `description` field. -/
def brokenMd : SkillMdContent :=
  SkillMdContent.parsed
    { name := some "broken-skill", description := none
      version := none, tags := [], license := none, compatibility := none
      allowed_tools := none }
    "Broken body."

/-- Directory entry holding the well-formed declarative skill. -/
def goodEntry : DirEntry :=
  { name := "good-skill", isDir := true, safeResolved := true
    pyLoad := none, mdContent := some goodMd }

/-- Directory entry holding the declarative skill missing `description`. -/
def brokenEntry : DirEntry :=
  { name := "broken-skill", isDir := true, safeResolved := true
    pyLoad := none, mdContent := some brokenMd }

/-- Demo skills root with one well-formed and one malformed declarative skill. -/
def demoDiscoveryDir : SkillsDir := SkillsDir.present [goodEntry, brokenEntry]

/-- Directory entry whose resolved path escapes the root (for example through
a crafted symlink): `safeResolved = false`, yet it holds a well-formed
SKILL.md. -/
def unsafeEntry : DirEntry :=
  { name := "escaped-skill", isDir := true, safeResolved := false
    pyLoad := none
    mdContent := some (SkillMdContent.parsed
      { name := some "escaped-skill", description := some "Lives outside the root"
        version := none, tags := [], license := none, compatibility := none
        allowed_tools := none }
      "Escape body.") }

/-- Directory entry containing both a `skill.py` whose module execution fails
and a well-formed SKILL.md. -/
def dualEntry : DirEntry :=
  { name := "dual-skill", isDir := true, safeResolved := true
    pyLoad := some (Except.error (SkillError.loadError "dual-skill"
      "module execution failed: boom"))
    mdContent := some (SkillMdContent.parsed
      { name := some "dual-skill", description := some "Declarative fallback"
        version := none, tags := [], license := none, compatibility := none
        allowed_tools := none }
      "Fallback body.") }

/-- Directory entry containing both a `skill.py` that loads successfully (as
`skillA`) and a well-formed SKILL.md. -/
def pyOkEntry : DirEntry :=
  { name := "skill-a", isDir := true, safeResolved := true
    pyLoad := some (Except.ok skillA)
    mdContent := some goodMd }

/-- Metadata record with a 70-character name (the length-limit scenario). -/
def longNameMeta : SkillMetadata :=
  { name := String.mk (List.replicate 70 (Char.ofNat 97))
    description := "d", version := "1.0.0", tags := [], source := "local"
    path := none, enabled := true, allowed_tools := none, license := none
    compatibility := none }

/-- Metadata record whose name violates the format rule (underscore and
upper-case letter) while staying within the length limit. -/
def invalidNameMeta : SkillMetadata :=
  { name := "Invalid_Name", description := "d", version := "1.0.0", tags := []
    source := "local", path := none, enabled := true, allowed_tools := none
    license := none, compatibility := none }

/-- Frontmatter carrying the format-violating name. -/
def invalidNameFm : Frontmatter :=
  { name := some "Invalid_Name", description := some "d", version := none
    tags := [], license := none, compatibility := none, allowed_tools := none }

/-- Frontmatter whose name carries a single trailing newline: the loader's
regex accepts it because of Python's `$` semantics. -/
def newlineNameFm : Frontmatter :=
  { name := some "abc\n", description := some "d", version := none
    tags := [], license := none, compatibility := none, allowed_tools := none }

/-- Metadata record with a 2000-character description. -/
def longDescMeta : SkillMetadata :=
  { name := "demo", description := String.mk (List.replicate 2000 (Char.ofNat 97))
    version := "1.0.0", tags := [], source := "local", path := none
    enabled := true, allowed_tools := none, license := none, compatibility := none }

/-! Theorems. -/

theorem reducerLoop_eq (new : List String) :
    ∀ seen result, reducerLoop seen result new = result ++ newUniqueAgainst seen new := by
  induction new with
  | nil => intro seen result; simp [reducerLoop, newUniqueAgainst]
  | cons s rest ih =>
    intro seen result
    by_cases h : s ∈ seen <;> simp [reducerLoop, newUniqueAgainst, h, ih]

/-- C2: `skill_list_reducer current new` is `current` unchanged followed by the
elements of `new` that are not already present, in first-seen order with
duplicates dropped; re-applying an activation already in `current` returns
`current` itself. -/
theorem skill_list_reducer_spec (current new : List String) :
    skill_list_reducer current new = current ++ newUniqueAgainst current new
    ∧ (∀ a, a ∈ current → skill_list_reducer current [a] = current) := by
  refine ⟨reducerLoop_eq new current current, ?_⟩
  intro a ha
  simp [skill_list_reducer, reducerLoop, ha]

theorem skill_list_reducer_spec_witness :
    ("a" ∈ ["a", "b"]) ∧ skill_list_reducer ["a", "b"] ["a"] = ["a", "b"] :=
  ⟨by decide, (skill_list_reducer_spec ["a", "b"] ["a"]).2 "a" (by decide)⟩

theorem tools_foldl_eq (active : List String) (l : List (String × BaseSkill)) :
    ∀ init : List BaseTool,
      l.foldl
        (fun tools p =>
          if !p.2.metadata.enabled then tools
          else
            let tools2 := tools ++ [p.2.get_loader_tool]
            if active.contains p.1 then tools2 ++ p.2.get_tools else tools2)
        init
      = init ++ l.flatMap (fun p =>
          if p.2.metadata.enabled then
            p.2.get_loader_tool ::
              (if active.contains p.1 then p.2.get_tools else [])
          else []) := by
  induction l with
  | nil => intro init; simp
  | cons p rest ih =>
    intro init
    rw [List.foldl_cons, List.flatMap_cons, ih]
    by_cases he : p.2.metadata.enabled
    · by_cases hc : p.1 ∈ active <;> simp [he, hc, List.append_assoc]
    · simp [he]

theorem flatMap_congr {α β : Type} (l : List α) (f g : α → List β)
    (h : ∀ x ∈ l, f x = g x) : l.flatMap f = l.flatMap g := by
  induction l with
  | nil => rfl
  | cons x xs ih =>
    rw [List.flatMap_cons, List.flatMap_cons, h x (by simp),
      ih (fun y hy => h y (by simp [hy]))]

/-- C1: on a registry whose keys agree with the stored skills' metadata names,
`get_tools_for_active_skills active` is, in registry insertion order, the
concatenation over skills of: nothing for a disabled skill; and for an enabled
skill its loader tool unconditionally, followed by its capability tools
exactly when its name is in `active`. -/
theorem get_tools_for_active_skills_spec (r : SkillRegistry) (active : List String)
    (h : ∀ p ∈ r.skills, p.1 = p.2.metadata.name) :
    r.get_tools_for_active_skills active
      = r.skills.flatMap (fun p =>
          if p.2.metadata.enabled then
            p.2.get_loader_tool ::
              (if active.contains p.2.metadata.name then p.2.get_tools else [])
          else []) := by
  unfold SkillRegistry.get_tools_for_active_skills
  rw [tools_foldl_eq active r.skills []]
  simp only [List.nil_append]
  exact flatMap_congr r.skills _ _ (fun p hp => by rw [h p hp])

theorem get_tools_for_active_skills_spec_witness :
    (∀ p ∈ regAB.skills, p.1 = p.2.metadata.name)
    ∧ regAB.get_tools_for_active_skills ["skill-a"]
        = [⟨"use_skill_a", "loader"⟩, ⟨"a_tool_1", "cap"⟩, ⟨"a_tool_2", "cap"⟩,
           ⟨"use_skill_b", "loader"⟩] :=
  ⟨by decide,
   (get_tools_for_active_skills_spec regAB ["skill-a"] (by decide)).trans (by decide)⟩

/-- C6: registering a skill whose name is already present raises
`SkillAlreadyRegisteredError` and leaves the registry unchanged: it still
holds exactly the previously registered skill under that name. -/
theorem register_duplicate_spec (r : SkillRegistry) (skill s0 : BaseSkill)
    (h : r.get skill.metadata.name = Except.ok s0) :
    (r.register skill).1
      = Except.error (SkillError.alreadyRegistered skill.metadata.name)
    ∧ (r.register skill).2 = r
    ∧ (r.register skill).2.get skill.metadata.name = Except.ok s0 := by
  have hhas : r.has skill.metadata.name = true := by
    unfold SkillRegistry.has
    unfold SkillRegistry.get at h
    cases hl : r.lookup skill.metadata.name with
    | none => rw [hl] at h; simp at h
    | some s => simp
  refine ⟨?_, ?_, ?_⟩ <;> simp [SkillRegistry.register, hhas, h]

theorem register_duplicate_spec_witness :
    regA.get skillA2.metadata.name = Except.ok skillA
    ∧ (regA.register skillA2).1
        = Except.error (SkillError.alreadyRegistered skillA2.metadata.name)
    ∧ (regA.register skillA2).2 = regA :=
  ⟨by decide, (register_duplicate_spec regA skillA2 skillA (by decide)).1,
   (register_duplicate_spec regA skillA2 skillA (by decide)).2.1⟩

theorem pySlice_of_le (s : String) (n : Nat) (h : s.length ≤ n) :
    pySlice s n = s := by
  cases s with
  | mk data =>
    have hd : data.length ≤ n := h
    unfold pySlice
    rw [List.take_of_length_le hd]

theorem pySlice_length (s : String) (n : Nat) :
    (pySlice s n).length = min n s.length := by
  cases s with
  | mk data =>
    unfold pySlice
    exact List.length_take n data

/-- C8: metadata construction with a valid-length name never fails on the
description; the stored description is the first
`MAX_SKILL_DESCRIPTION_LENGTH` characters of the input (all of it when the
input is short enough, exactly 1024 characters when it is longer). -/
theorem metadata_description_truncation (m : SkillMetadata)
    (h : m.name.length ≤ MAX_SKILL_NAME_LENGTH) :
    SkillMetadata.validate m
      = Except.ok
          { m with description := pySlice m.description MAX_SKILL_DESCRIPTION_LENGTH }
    ∧ (m.description.length ≤ MAX_SKILL_DESCRIPTION_LENGTH →
        SkillMetadata.validate m = Except.ok m)
    ∧ (MAX_SKILL_DESCRIPTION_LENGTH < m.description.length →
        (pySlice m.description MAX_SKILL_DESCRIPTION_LENGTH).length
          = MAX_SKILL_DESCRIPTION_LENGTH) := by
  have hname : ¬ m.name.length > MAX_SKILL_NAME_LENGTH := by omega
  refine ⟨?_, ?_, ?_⟩
  · by_cases hd : m.description.length > MAX_SKILL_DESCRIPTION_LENGTH
    · simp [SkillMetadata.validate, hname, hd]
    · have hle : m.description.length ≤ MAX_SKILL_DESCRIPTION_LENGTH := by omega
      simp [SkillMetadata.validate, hname, hd, pySlice_of_le _ _ hle]
  · intro hle
    have hd : ¬ m.description.length > MAX_SKILL_DESCRIPTION_LENGTH := by omega
    simp [SkillMetadata.validate, hname, hd]
  · intro hlt
    have hmin := pySlice_length m.description MAX_SKILL_DESCRIPTION_LENGTH
    omega

theorem longDescMeta_desc_length : longDescMeta.description.length = 2000 := by
  show (List.replicate 2000 (Char.ofNat 97)).length = 2000
  exact List.length_replicate 2000 (Char.ofNat 97)

theorem metadata_description_truncation_witness :
    longDescMeta.name.length ≤ MAX_SKILL_NAME_LENGTH
    ∧ SkillMetadata.validate longDescMeta
        = Except.ok
            { longDescMeta with
              description := pySlice longDescMeta.description MAX_SKILL_DESCRIPTION_LENGTH }
    ∧ (pySlice longDescMeta.description MAX_SKILL_DESCRIPTION_LENGTH).length
        = MAX_SKILL_DESCRIPTION_LENGTH :=
  ⟨by decide, (metadata_description_truncation longDescMeta (by decide)).1,
   (metadata_description_truncation longDescMeta (by decide)).2.2
     (by rw [longDescMeta_desc_length]; decide)⟩

/-- C10: with an empty registry and no activated skills the built skills
prompt is the empty string, and `prepare_messages` returns the state's
message list unchanged. -/
theorem prepare_messages_empty_passthrough (r : SkillRegistry) (st : SkillState)
    (h1 : r.skills = []) (h2 : st.skills_loaded = []) :
    build_skills_system_prompt r st.skills_loaded = ""
    ∧ SkillMiddleware.prepare_messages r st none = st.messages := by
  have hp : build_skills_system_prompt r st.skills_loaded = "" := by
    unfold build_skills_system_prompt SkillRegistry.get_skills_summary
    rw [h1, h2]
    rfl
  refine ⟨hp, ?_⟩
  unfold SkillMiddleware.prepare_messages inject_skills_into_messages
  simp [hp]

theorem prepare_messages_empty_passthrough_witness :
    emptyRegistry.skills = []
    ∧ SkillMiddleware.prepare_messages emptyRegistry
        ⟨[BaseMessage.human "hello"], []⟩ none = [BaseMessage.human "hello"] :=
  ⟨rfl,
   (prepare_messages_empty_passthrough emptyRegistry
     ⟨[BaseMessage.human "hello"], []⟩ rfl rfl).2⟩

/-- C9 counterexample: when the built skills text is empty (empty registry,
no active skills) and the input starts with a system message,
`prepare_messages` returns the input unchanged, while the claim requires the
leading system message to be replaced by one with the separator-concatenated
content. -/
theorem prepare_messages_inject_counterexample :
    SkillMiddleware.prepare_messages emptyRegistry
        ⟨[BaseMessage.system "x"], []⟩ none = [BaseMessage.system "x"]
    ∧ BaseMessage.system "x"
        ≠ BaseMessage.system
            (build_skills_system_prompt emptyRegistry [] ++ "\n\n---\n\n" ++ "x") := by
  refine ⟨by decide, ?_⟩
  intro h
  simp only [BaseMessage.system.injEq] at h
  have : build_skills_system_prompt emptyRegistry [] = "" := by decide
  rw [this] at h
  exact absurd h (by decide)

/-- C9 (amended): whenever the built skills text is non-empty,
`prepare_messages` derives a new message list with the skills text at the
front: a leading system message is replaced by one whose content is the
skills text, a separator, then the original content, with the remaining
messages unchanged; otherwise a new leading system message holding the skills
text is inserted before the unchanged original messages.  (With an empty
skills text the input list is returned as is; the stored state is never
mutated, the result being a fresh list.) -/
theorem prepare_messages_injects (r : SkillRegistry) (st : SkillState)
    (h : build_skills_system_prompt r st.skills_loaded ≠ "") :
    (∀ c rest, st.messages = BaseMessage.system c :: rest →
      SkillMiddleware.prepare_messages r st none
        = BaseMessage.system
            (build_skills_system_prompt r st.skills_loaded ++ "\n\n---\n\n" ++ c)
          :: rest)
    ∧ (headIsSystem st.messages = false →
      SkillMiddleware.prepare_messages r st none
        = BaseMessage.system (build_skills_system_prompt r st.skills_loaded)
          :: st.messages) := by
  constructor
  · intro c rest hmsg
    unfold SkillMiddleware.prepare_messages inject_skills_into_messages
    rw [hmsg]
    simp [h, isSystemMessage, BaseMessage.content]
  · intro hns
    unfold SkillMiddleware.prepare_messages inject_skills_into_messages
    cases hm : st.messages with
    | nil => simp [h]
    | cons m ms =>
      unfold headIsSystem at hns
      rw [hm] at hns
      simp only [List.head?_cons] at hns
      simp [h, hns]

theorem prepare_messages_injects_witness :
    build_skills_system_prompt regA [] ≠ ""
    ∧ SkillMiddleware.prepare_messages regA ⟨[BaseMessage.system "sys"], []⟩ none
        = [BaseMessage.system
            (build_skills_system_prompt regA [] ++ "\n\n---\n\n" ++ "sys")] :=
  ⟨by decide,
   (prepare_messages_injects regA ⟨[BaseMessage.system "sys"], []⟩ (by decide)).1
     "sys" [] rfl⟩

/-- C5 counterexample: a name that violates the required format (upper-case
letter and underscore) while staying within the length limit is accepted by
`SkillMetadata` construction without any error.  Moreover even the loader
accepts some format-violating names: a name with one trailing newline passes
the source regex (Python `$` semantics) and the declarative skill loads. -/
theorem metadata_name_format_counterexample :
    skill_name_matches invalidNameMeta.name = false
    ∧ invalidNameMeta.name.length ≤ MAX_SKILL_NAME_LENGTH
    ∧ SkillMetadata.validate invalidNameMeta = Except.ok invalidNameMeta
    ∧ skill_name_matches "abc\n" = true
    ∧ (load_markdown_skill (some (SkillMdContent.parsed newlineNameFm "body"))
        "abc" "local").isSome = true := by
  decide

theorem parse_skill_md_rejects_bad_name (fm : Frontmatter)
    (body dir_name source name : String)
    (hn : fm.name = some name) (hmatch : skill_name_matches name = false) :
    ∃ e, parse_skill_md (SkillMdContent.parsed fm body) dir_name source
        = Except.error e := by
  simp only [parse_skill_md]
  rw [hn]
  cases hd : fm.description with
  | none => exact ⟨_, rfl⟩
  | some d =>
    by_cases h0 : (decide (name = "") || decide (d = "")) = true
    · exact ⟨SkillError.loadError dir_name
        "missing required name or description field", by simp [h0]⟩
    · have hne : name ≠ "" := by
        intro h
        apply h0
        subst h
        simp
      have hv : (validate_skill_name name dir_name).1 = false := by
        unfold validate_skill_name
        by_cases hl : name.length > MAX_SKILL_NAME_LENGTH
        · simp [hne, hl]
        · simp [hne, hl, hmatch]
      exact ⟨SkillError.metadataError (validate_skill_name name dir_name).2,
        by simp [h0, hv]⟩

theorem load_md_rejects_bad_name (fm : Frontmatter)
    (body dir_name source name : String)
    (hn : fm.name = some name) (hmatch : skill_name_matches name = false) :
    load_markdown_skill (some (SkillMdContent.parsed fm body)) dir_name source
      = none := by
  obtain ⟨e, he⟩ :=
    parse_skill_md_rejects_bad_name fm body dir_name source name hn hmatch
  simp only [load_markdown_skill]
  rw [he]

/-- C5 (amended): constructing `SkillMetadata` with a name longer than 64
characters raises a `SkillMetadataError` at construction; format violations
are not rejected at `SkillMetadata` construction but by the loader's
`_validate_skill_name` regex check inside `parse_skill_md` — whose `$`
anchor, per Python `re.match` semantics, additionally tolerates exactly one
trailing newline — so a declarative skill whose name fails that check fails
to load and is never registered. -/
theorem metadata_name_validation (m : SkillMetadata) (fm : Frontmatter)
    (name body dir_name source : String) (hn : fm.name = some name) :
    (MAX_SKILL_NAME_LENGTH < m.name.length →
      SkillMetadata.validate m
        = Except.error (SkillError.metadataError
            ("Skill name exceeds " ++ toString MAX_SKILL_NAME_LENGTH
              ++ " characters: " ++ m.name)))
    ∧ (skill_name_matches name = false →
        load_markdown_skill (some (SkillMdContent.parsed fm body)) dir_name source
          = none) := by
  constructor
  · intro hlen
    have hgt : m.name.length > MAX_SKILL_NAME_LENGTH := hlen
    simp [SkillMetadata.validate, hgt]
  · exact load_md_rejects_bad_name fm body dir_name source name hn

theorem metadata_name_validation_witness :
    invalidNameFm.name = some "Invalid_Name"
    ∧ MAX_SKILL_NAME_LENGTH < longNameMeta.name.length
    ∧ SkillMetadata.validate longNameMeta
        = Except.error (SkillError.metadataError
            ("Skill name exceeds " ++ toString MAX_SKILL_NAME_LENGTH
              ++ " characters: " ++ longNameMeta.name))
    ∧ load_markdown_skill (some (SkillMdContent.parsed invalidNameFm "body"))
        "dir" "local" = none :=
  ⟨rfl, by decide,
   (metadata_name_validation longNameMeta invalidNameFm "Invalid_Name" "body"
     "dir" "local" rfl).1 (by decide),
   (metadata_name_validation longNameMeta invalidNameFm "Invalid_Name" "body"
     "dir" "local" rfl).2 (by decide)⟩

/-- C4 counterexample: a directory entry holding both a `skill.py` (whose
module execution fails) and a well-formed SKILL.md ends up registered from
the declarative file — the markdown result, not the programmatic one,
determines the registered skill. -/
theorem python_precedence_counterexample :
    dualEntry.pyLoad.isSome = true
    ∧ dualEntry.mdContent.isSome = true
    ∧ ((emptyRegistry.discover_from_directory
          (SkillsDir.present [dualEntry]) "local").2.lookup "dual-skill").map
        BaseSkill.is_markdown = some true := by
  decide

/-- C4 (amended): when programmatic loading yields a skill, that result is
used and the declarative file is ignored; but when `skill.py` is absent or
its load raises, the declarative SKILL.md result (if any) determines the
skill for the directory. -/
theorem python_skill_precedence (e : DirEntry) (s : BaseSkill) (source : String) :
    (e.pyLoad = some (Except.ok s) → load_skill_from_entry e source = some s)
    ∧ (∀ err, e.pyLoad = some (Except.error err) →
        load_skill_from_entry e source
          = load_markdown_skill e.mdContent e.name source)
    ∧ (e.pyLoad = none →
        load_skill_from_entry e source
          = load_markdown_skill e.mdContent e.name source) := by
  refine ⟨fun hp => ?_, fun err hp => ?_, fun hp => ?_⟩ <;>
    · unfold load_skill_from_entry
      rw [hp]

theorem python_skill_precedence_witness :
    pyOkEntry.pyLoad = some (Except.ok skillA)
    ∧ pyOkEntry.mdContent.isSome = true
    ∧ load_skill_from_entry pyOkEntry "local" = some skillA :=
  ⟨rfl, rfl, (python_skill_precedence pyOkEntry skillA "local").1 rfl⟩

/-- C3: evaluation at the failing input.  A subdirectory whose resolved path
escapes the root (`safeResolved = false`) but holds a well-formed SKILL.md is
registered by `SkillRegistry.discover_from_directory` (count 1, skill
present), which performs no `_is_safe_path` check; the loader-level
`discover_markdown_skills` on the same listing excludes it. -/
theorem discover_unsafe_path_divergence :
    unsafeEntry.safeResolved = false
    ∧ (emptyRegistry.discover_from_directory
        (SkillsDir.present [unsafeEntry]) "local").1 = 1
    ∧ (emptyRegistry.discover_from_directory
        (SkillsDir.present [unsafeEntry]) "local").2.has "escaped-skill" = true
    ∧ discover_markdown_skills (SkillsDir.present [unsafeEntry]) "local" = [] := by
  decide

theorem discover_step_cases (source : String) (c : Nat) (r : SkillRegistry)
    (e : DirEntry) :
    discover_step source (c, r) e = (c, r)
    ∨ ∃ s : BaseSkill, discover_step source (c, r) e
        = (c + 1, { skills := r.skills ++ [(s.metadata.name, s)] }) := by
  unfold discover_step
  by_cases h1 : e.isDir
  case neg => left; simp [h1]
  by_cases h2 : pyStartsWith e.name "."
  case pos => left; simp [h1, h2]
  cases hl : load_skill_from_entry e source with
  | none => left; simp [h1, h2, hl]
  | some skill =>
    by_cases hr : r.has skill.metadata.name
    · left; simp [h1, h2, hl, SkillRegistry.register, hr]
    · right
      exact ⟨skill, by simp [h1, h2, hl, SkillRegistry.register, hr]⟩

theorem discover_loop_adds (source : String) (entries : List DirEntry) :
    ∀ (c : Nat) (r : SkillRegistry), ∃ l,
      entries.foldl (discover_step source) (c, r)
        = (c + l.length, { skills := r.skills ++ l }) := by
  induction entries with
  | nil => intro c r; exact ⟨[], by simp⟩
  | cons e rest ih =>
    intro c r
    rcases discover_step_cases source c r e with h | ⟨s, h⟩
    · obtain ⟨l, hl⟩ := ih c r
      exact ⟨l, by rw [List.foldl_cons, h, hl]⟩
    · obtain ⟨l, hl⟩ := ih (c + 1) { skills := r.skills ++ [(s.metadata.name, s)] }
      refine ⟨(s.metadata.name, s) :: l, ?_⟩
      rw [List.foldl_cons, h, hl]
      simp only [Prod.mk.injEq, SkillRegistry.mk.injEq]
      constructor
      · simp; omega
      · simp [List.append_assoc]

/-- C7: `discover_from_directory` is a total scan: the prior registry contents
are preserved, exactly the newly registered skills are appended, and the
returned count equals their number.  On the demo directory holding one
well-formed declarative skill and one missing its `description`, the count is
1, the well-formed skill is present and the malformed one absent. -/
theorem discover_from_directory_spec (r : SkillRegistry) (d : SkillsDir)
    (source : String) :
    (∃ l, (r.discover_from_directory d source).2.skills = r.skills ++ l
        ∧ (r.discover_from_directory d source).1 = l.length)
    ∧ (emptyRegistry.discover_from_directory demoDiscoveryDir "local").1 = 1
    ∧ (emptyRegistry.discover_from_directory demoDiscoveryDir "local").2.has
        "good-skill" = true
    ∧ (emptyRegistry.discover_from_directory demoDiscoveryDir "local").2.has
        "broken-skill" = false := by
  refine ⟨?_, by decide, by decide, by decide⟩
  cases d with
  | missing => exact ⟨[], by simp [SkillRegistry.discover_from_directory]⟩
  | present entries =>
    obtain ⟨l, hl⟩ := discover_loop_adds source entries 0 r
    refine ⟨l, ?_, ?_⟩ <;> simp [SkillRegistry.discover_from_directory, hl]

end Mask
